import Mathlib

/-!
Verification development for the Automated-Research-Assistant repository
(TypeScript). The definitions below are shallow embeddings of the source
functions; JavaScript string/array semantics (truthiness, `split`,
first-occurrence `replace`, trimming, and so on) are modelled by small
explicit helpers over `List Char` with structural recursion, so that every
embedded function evaluates inside the kernel and each definition can be
diffed line-by-line against its TypeScript original.
-/

namespace ARA

/-! ## JavaScript string primitives (structural, kernel-computable) -/

/-- If `pat` is a prefix of `s`, return the remainder of `s`. -/
def dropPrefix? : List Char → List Char → Option (List Char)
  | [], s => some s
  | _ :: _, [] => none
  | p :: ps, c :: cs => if p = c then dropPrefix? ps cs else none

/-- JS `String.prototype.startsWith` with a plain pattern. -/
def strStartsWith (s pat : String) : Bool :=
  (dropPrefix? pat.data s.data).isSome

/-- Fuel-driven worker for `jsSplit`: scans left to right, splitting on
non-overlapping occurrences of the (non-empty) separator, exactly like
JS `split`. `acc` holds the current chunk reversed. -/
def splitAux (sep : List Char) : List Char → List Char → Nat → List (List Char)
  | _, acc, 0 => [acc.reverse]
  | s, acc, fuel + 1 =>
    match s with
    | [] => [acc.reverse]
    | c :: cs =>
      match dropPrefix? sep s with
      | some rest => acc.reverse :: splitAux sep rest [] fuel
      | none => splitAux sep cs (c :: acc) fuel

/-- JS `String.prototype.split` on a non-empty literal separator (no call
site in the embedded code splits on the empty string). -/
def jsSplit (s sep : String) : List String :=
  if sep = "" then [s]
  else (splitAux sep.data s.data [] (s.data.length + 1)).map List.asString

/-- JS whitespace test (ASCII portion of `\s`). -/
def jsWs (c : Char) : Bool := c = ' ' ∨ c = '\t' ∨ c = '\n' ∨ c = '\r'

/-- JS `String.prototype.trim` (ASCII whitespace). -/
def jsTrim (s : String) : String :=
  (((s.data.dropWhile jsWs).reverse.dropWhile jsWs).reverse).asString

/-- JS `String.prototype.toLowerCase` (ASCII letters). -/
def jsLower (s : String) : String := (s.data.map Char.toLower).asString

/-- JS `Array.prototype.join`. -/
def jsJoin (sep : String) : List String → String
  | [] => ""
  | [x] => x
  | x :: y :: xs => x ++ sep ++ jsJoin sep (y :: xs)

/-- JS `String.prototype.includes`. -/
def jsIncludes (s pat : String) : Bool :=
  if pat = "" then true else (jsSplit s pat).length ≠ 1

/-- JS `String.prototype.replace` with a literal (non-regex) pattern:
replaces only the first occurrence. -/
def jsReplaceFirst (s pat rep : String) : String :=
  match jsSplit s pat with
  | [] => s
  | [x] => x
  | x :: rest => x ++ rep ++ jsJoin pat rest

/-- JS `String.prototype.replace` with a global pattern: replaces every
non-overlapping occurrence, scanning left to right. -/
def jsReplaceAll (s pat rep : String) : String :=
  jsJoin rep (jsSplit s pat)

/-- JS substring from character index `n` (all source call sites slice
ASCII heading markers, so character counting matches UTF-16 units). -/
def jsDrop (s : String) (n : Nat) : String := (s.data.drop n).asString

/-- JS `x || d` for string operands: returns `d` when `x` is `undefined`
(`none`) or the empty string (falsy), else the string itself. -/
def jsOrS (x : Option String) (d : String) : String :=
  match x with
  | some s => if s = "" then d else s
  | none => d

/-- JS truthiness of a possibly-absent string property. -/
def jsTruthy (x : Option String) : Bool :=
  match x with
  | some s => s ≠ ""
  | none => false

/-- `s.split(sep)[1]?.trim()` — the value-extraction idiom of the
persona parser. -/
def splitSecond (s sep : String) : Option String :=
  ((jsSplit s sep).get? 1).map jsTrim

/-! ## Report Assembler — `AutonomousReportGenerator.finalizeReport`
(src/unnamed/part_002, lines 306–341). The TypeScript function performs
no awaiting work and cannot throw, so it is embedded as a pure function. -/

/-- Embedding of `finalizeReport(content, introduction, conclusion)`. -/
def finalizeReport (content introduction conclusion : String) : String :=
  let content :=
    if strStartsWith content "## Insights" then
      jsTrim (jsReplaceFirst content "## Insights" "")
    else content
  let split : String × Option String :=
    if jsIncludes content "## Sources" then
      match jsSplit content "\n## Sources\n" with
      | [a, b] => (a, some b)
      | _ => (content, none)
    else (content, none)
  let content := split.1
  let sources := split.2
  let finalReport := if introduction ≠ "" then introduction ++ "\n\n---\n\n" else ""
  let finalReport := finalReport ++ content
  let finalReport :=
    if conclusion ≠ "" then finalReport ++ "\n\n---\n\n" ++ conclusion else finalReport
  match sources with
  | some s => if s ≠ "" then finalReport ++ "\n\n## Sources\n" ++ s else finalReport
  | none => finalReport

/-! ## Persona Parser — `AutonomousReportGenerator.parseAnalystsFromResponse`,
`completeAnalyst`, `createAnalystsFromContent`
(src/unnamed/part_002, lines 145–233). -/

/-- The `Analyst` record of `src/models/schemas` (part_003): four string
fields. -/
structure Analyst where
  name : String
  role : String
  affiliation : String
  description : String
deriving DecidableEq, Repr

/-- The in-flight `Partial<Analyst>` object of the parser loop; `none`
models an absent JS property, `some ""` a property set to the empty
string (present for `Object.keys`, falsy for `||`). -/
structure PartialAnalyst where
  name : Option String := none
  role : Option String := none
  affiliation : Option String := none
  description : Option String := none
deriving DecidableEq, Repr

/-- `Object.keys(currentAnalyst).length` — the number of properties set. -/
def PartialAnalyst.keysCount (p : PartialAnalyst) : Nat :=
  ([p.name, p.role, p.affiliation, p.description].filter Option.isSome).length

/-- Embedding of `completeAnalyst`: backfills absent/empty fields with the
fixed defaults. -/
def completeAnalyst (p : PartialAnalyst) : Analyst :=
  { name := jsOrS p.name "Unknown Analyst"
    role := jsOrS p.role "Research Analyst"
    affiliation := jsOrS p.affiliation "AI Research Institute"
    description :=
      jsOrS p.description
        (jsOrS p.name "This analyst" ++ " provides expert analysis on the topic.") }

/-- The regex test `/^analyst\s*\d*:/` on the already-lowercased clean
line: `analyst`, optional whitespace, optional digits, then a colon
(greedy matching is equivalent to the regex here because the character
classes are pairwise disjoint). -/
def analystHeaderCheck (lower : String) : Bool :=
  match dropPrefix? "analyst".data lower.data with
  | none => false
  | some rest =>
    (dropPrefix? [':'] ((rest.dropWhile jsWs).dropWhile Char.isDigit)).isSome

/-- The markdown clean-up applied to each line before matching:
`trim`, strip one leading `*` and following whitespace (`/^\*\s*/`),
remove all `**` (`/\*\*/g`), `trim` again. -/
def cleanLineOf (line : String) : String :=
  let trimmed := jsTrim line
  let c1 :=
    if strStartsWith trimmed "*" then ((trimmed.data.drop 1).dropWhile jsWs).asString
    else trimmed
  jsTrim (jsReplaceAll c1 "**" "")

/-- One iteration of the `for (const line of lines)` loop of
`parseAnalystsFromResponse`; the accumulator carries the analysts pushed
so far and the current partial record. -/
def parseStep (acc : List Analyst × PartialAnalyst) (line : String) :
    List Analyst × PartialAnalyst :=
  let analysts := acc.1
  let cur := acc.2
  let cleanLine := cleanLineOf line
  let lower := jsLower cleanLine
  if strStartsWith lower "name:" then
    let analysts :=
      if jsTruthy cur.name ∧ cur.keysCount > 1 then analysts ++ [completeAnalyst cur]
      else analysts
    (analysts, { name := some (jsOrS (splitSecond cleanLine ":") "Unknown Analyst") })
  else if strStartsWith lower "role:" then
    (analysts, { cur with role := splitSecond cleanLine ":" })
  else if strStartsWith lower "affiliation:" then
    (analysts, { cur with affiliation := splitSecond cleanLine ":" })
  else if strStartsWith lower "description:" then
    (analysts, { cur with description := splitSecond cleanLine ":" })
  else if analystHeaderCheck lower then
    let analysts :=
      if jsTruthy cur.name ∧ cur.keysCount > 1 then analysts ++ [completeAnalyst cur]
      else analysts
    (analysts, { name := some (jsOrS (splitSecond cleanLine ":") cleanLine) })
  else (analysts, cur)

/-- `\w` of JS regexes (ASCII word character). -/
def isWordChar (c : Char) : Bool := c.isAlpha ∨ c.isDigit ∨ c = '_'

/-- Match `[A-Z][a-z]+` at the head of `cs`; returns the consumed prefix
and the remainder. -/
def matchCap (cs : List Char) : Option (List Char × List Char) :=
  match cs with
  | [] => none
  | c :: rest =>
    if c.isUpper then
      let ls := rest.takeWhile Char.isLower
      if ls = [] then none else some (c :: ls, rest.drop ls.length)
    else none

/-- Match one `\s+[A-Z][a-z]+` group at the head of `cs`. -/
def matchGroup (cs : List Char) : Option (List Char × List Char) :=
  let ws := cs.takeWhile jsWs
  if ws = [] then none
  else
    match matchCap (cs.drop ws.length) with
    | some (cap, rest) => some (ws ++ cap, rest)
    | none => none

/-- Greedily collect `\s+[A-Z][a-z]+` groups (fuel-driven; each group
consumes at least two characters). -/
def matchGroups : List Char → Nat → List (List Char) × List Char
  | cs, 0 => ([], cs)
  | cs, fuel + 1 =>
    match matchGroup cs with
    | none => ([], cs)
    | some (g, rest) =>
      let (gs, rest') := matchGroups rest fuel
      (g :: gs, rest')

/-- Word-boundary test after a match (`\b`): end of input or a non-word
character. -/
def boundaryAfter (rest : List Char) : Bool :=
  match rest with
  | [] => true
  | c :: _ => ¬ isWordChar c

/-- Regex backtracking for the trailing `\b`: drop trailing groups until
the boundary holds, keeping at least one group. The group list is
processed in reverse (last group first) so the recursion is structural. -/
def shrinkGroupsRev : List (List Char) → List Char → Option (List (List Char) × List Char)
  | [], _ => none
  | g :: gs, rest =>
    if boundaryAfter rest then some (g :: gs, rest)
    else shrinkGroupsRev gs (g ++ rest)

/-- Try `/\b([A-Z][a-z]+(?:\s+[A-Z][a-z]+)+)\b/` at the head of `cs`
(the leading `\b` is checked by the caller). -/
def tryMatchAt (cs : List Char) : Option (List Char × List Char) :=
  match matchCap cs with
  | none => none
  | some (first, rest) =>
    let (gs, rest') := matchGroups rest rest.length
    match shrinkGroupsRev gs.reverse rest' with
    | none => none
    | some (gsRev, rest'') => some (first ++ gsRev.reverse.flatten, rest'')

/-- The global scan of `content.match(nameRegex)`: advance one character
after a failed attempt, continue after the end of each match. -/
def scanNames : List Char → Bool → Nat → List String
  | _, _, 0 => []
  | [], _, _ + 1 => []
  | c :: rest, prevIsWord, fuel + 1 =>
    if prevIsWord then scanNames rest (isWordChar c) fuel
    else
      match tryMatchAt (c :: rest) with
      | some (m, rest') => m.asString :: scanNames rest' true fuel
      | none => scanNames rest (isWordChar c) fuel

/-- `content.match(/\b([A-Z][a-z]+(?:\s+[A-Z][a-z]+)+)\b/g) || []`. -/
def extractProperNames (content : String) : List String :=
  scanNames content.data false content.data.length

/-- `[...new Set(xs)]` — deduplication preserving first-occurrence order. -/
def jsSetDedupe (xs : List String) : List String :=
  xs.foldl (fun acc x => if x ∈ acc then acc else acc ++ [x]) []

/-- Embedding of `createAnalystsFromContent`: synthesize analysts from
proper-noun-like substrings, padded to three slots. -/
def createAnalystsFromContent (content : String) : List Analyst :=
  let nameMatches := extractProperNames content
  let uniqueNames := (jsSetDedupe nameMatches).take 3
  (List.range (max uniqueNames.length 3)).map fun i =>
    let name := jsOrS (uniqueNames.get? i) ("Analyst " ++ toString (i + 1))
    { name
      role :=
        if i = 0 then "Senior Economist"
        else if i = 1 then "Data Analyst"
        else "Research Analyst"
      affiliation :=
        if i = 0 then "Reserve Bank"
        else if i = 1 then "Research Institute"
        else "AI Analytics"
      description := name ++ " provides expert analysis and insights on the topic." }

/-- The line loop of `parseAnalystsFromResponse` together with the final
flush of the trailing record (`if (currentAnalyst.name) push(...)`). -/
def parseAnalystsLoop (content : String) : List Analyst :=
  let folded := (jsSplit content "\n").foldl parseStep ([], {})
  if jsTruthy folded.2.name then folded.1 ++ [completeAnalyst folded.2] else folded.1

/-- Embedding of `parseAnalystsFromResponse`: the line loop, then the
content-based fallback when no analysts were found. -/
def parseAnalystsFromResponse (content : String) : List Analyst :=
  let analysts := parseAnalystsLoop content
  if analysts = [] then createAnalystsFromContent content else analysts

/-! ## Document Exporter — `AutonomousReportGenerator.saveAsDocx` and
`saveAsPdf` (src/unnamed/part_002, lines 390–431 and 436–520).

The DOCX encoder is embedded as the list of paragraphs it emits; the PDF
encoder as the list of layout events (text drawn at a position with a
font, or a page break). `widthOfString` is font metrics external to the
repository, so the PDF embedding is parameterised by an arbitrary width
measurer `w` for body text (headings never measure widths).

The PDF cursor `y` is tracked in half-points: the source advances it by
`15`, `15 * 1.5`, `15 * 1.3` and `15 * 1.2` — all of which are exact
IEEE-754 doubles equal to `15`, `22.5`, `19.5` and `18`, i.e. integral in
half-points — so `Nat` arithmetic on doubled values is exact. The check
`y > pageHeight - bottomMargin` (i.e. `y > 742` points) becomes
`y > 1484` half-points, and the initial/reset cursor `50` becomes `100`. -/

/-- One paragraph emitted by the DOCX encoder: heading level 1–3 or a
plain body run. -/
structure DocxParagraph where
  text : String
  heading : Option Nat
deriving DecidableEq, Repr

/-- The per-line mapping of `saveAsDocx` (the body of its `for` loop). -/
def docxPara (line : String) : DocxParagraph :=
  if strStartsWith line "# " then ⟨jsDrop line 2, some 1⟩
  else if strStartsWith line "## " then ⟨jsDrop line 3, some 2⟩
  else if strStartsWith line "### " then ⟨jsDrop line 4, some 3⟩
  else ⟨line, none⟩

/-- Embedding of `saveAsDocx`: split into lines, drop blank lines, map
each remaining line to a paragraph. -/
def saveAsDocx (text : String) : List DocxParagraph :=
  ((jsSplit text "\n").filter (fun l => jsTrim l ≠ "")).map docxPara

/-- One layout event of the PDF encoder: text drawn at `(x, y)` (in
half-points) with a font size and boldness, or a page break. -/
inductive PdfEvent where
  | draw (text : String) (x y fontSize : Nat) (bold : Bool)
  | newPage
deriving DecidableEq, Repr

/-- One step of the word-wrap loop of the PDF body branch. -/
def pdfWrapStep (w : String → Nat) (st : List PdfEvent × Nat × String) (word : String) :
    List PdfEvent × Nat × String :=
  let evs := st.1
  let y := st.2.1
  let currentLine := st.2.2
  let testLine := if currentLine = "" then word else currentLine ++ " " ++ word
  if w testLine > 500 then (evs ++ [.draw currentLine 100 y 11 false], y + 30, word)
  else (evs, y, testLine)

/-- The per-line body of the PDF encoder's `for` loop: blank-line advance,
page-break check, heading styling, or greedy word wrap for wide body
lines. -/
def pdfLine (w : String → Nat) (acc : List PdfEvent × Nat) (rawLine : String) :
    List PdfEvent × Nat :=
  let evs := acc.1
  let y := acc.2
  let line := jsTrim rawLine
  if line = "" then (evs, y + 30)
  else
    let evs := if y > 1484 then evs ++ [.newPage] else evs
    let y := if y > 1484 then 100 else y
    if strStartsWith line "# " then (evs ++ [.draw (jsDrop line 2) 100 y 16 true], y + 45)
    else if strStartsWith line "## " then
      (evs ++ [.draw (jsDrop line 3) 100 y 13 true], y + 39)
    else if strStartsWith line "### " then
      (evs ++ [.draw (jsDrop line 4) 100 y 11 true], y + 36)
    else if w line > 500 then
      let wrapped := (jsSplit line " ").foldl (pdfWrapStep w) (evs, y, "")
      if wrapped.2.2 ≠ "" then
        (wrapped.1 ++ [.draw wrapped.2.2 100 wrapped.2.1 11 false], wrapped.2.1 + 30)
      else (wrapped.1, wrapped.2.1)
    else (evs ++ [.draw line 100 y 11 false], y + 30)

/-- Embedding of `saveAsPdf`: the sequence of layout events produced for
`text`, starting from the top margin. -/
def saveAsPdf (w : String → Nat) (text : String) : List PdfEvent :=
  ((jsSplit text "\n").foldl (pdfLine w) ([], 100)).1

/-- The printable-area bound on a draw event (`pageHeight - bottomMargin`
in half-points). -/
def drawWithin (bound : Nat) : PdfEvent → Bool
  | .draw _ _ y _ _ => y ≤ bound
  | .newPage => true

/-- The vertical position of the first drawn item in an event list. -/
def firstDrawY (evs : List PdfEvent) : Option Nat :=
  evs.findSome? fun e =>
    match e with
    | .draw _ _ y _ _ => some y
    | .newPage => none

/-- Line classification shared by both encoders. -/
inductive LineClass where
  | h1
  | h2
  | h3
  | body
  | skipped
deriving DecidableEq, Repr

/-- The classification the DOCX encoder assigns to an input line: blank
lines are filtered out, the rest follow `docxPara`'s heading branches
(which test the raw, untrimmed line). -/
def docxClassify (line : String) : LineClass :=
  if jsTrim line = "" then .skipped
  else
    match (docxPara line).heading with
    | some 1 => .h1
    | some 2 => .h2
    | some 3 => .h3
    | _ => .body

/-- The classification the PDF encoder assigns to an input line: it trims
the line first, skips it when blank, and otherwise follows the same
heading-marker branches as `pdfLine` (which test the trimmed line). -/
def pdfClassify (rawLine : String) : LineClass :=
  let line := jsTrim rawLine
  if line = "" then .skipped
  else if strStartsWith line "# " then .h1
  else if strStartsWith line "## " then .h2
  else if strStartsWith line "### " then .h3
  else .body

/-- A concrete document for exercising the PDF encoder: 46 blank lines
(advancing the cursor to 1480 half-points) followed by one wide body line
of two 30-character words. -/
def pdfWideLineText : String :=
  (List.replicate 46 '\n').asString ++
    ((List.replicate 30 'a').asString ++ " " ++ (List.replicate 30 'b').asString)

/-- A concrete character-count width measurer for exercising the PDF
encoder. -/
def charWidth10 (s : String) : Nat := s.length * 10

/-! ## Interview Pipeline — `InterviewGraphBuilder` (src/unnamed/part_000).

Messages are `{role, content}` records; a message built directly from an
LLM response has no `role` property, modelled as `role := ""` (JS
`msg.role || 'unknown'` reads it through `||`, which `jsOrS` mirrors). -/

structure Msg where
  role : String
  content : String
deriving DecidableEq, Repr

/-- The language-model collaborator (`llm.invoke`): an ordered message
list in, a message content out, or a provider error. -/
def LLM : Type := List Msg → Except String String

/-- One web-search result (`{url, content}`); `""` models an absent
property, since both properties are only read through JS `||`. -/
structure SearchDoc where
  url : String
  content : String
deriving DecidableEq, Repr

/-- The web-search collaborator (`tavilySearch.invoke`): `none` models a
null/undefined result (the `!searchDocs` test), `some docs` an array. -/
def Tavily : Type := String → Except String (Option (List SearchDoc))

/-- The `InterviewState` record of `src/models/schemas` (part_003). -/
structure InterviewState where
  messages : List Msg
  max_num_turns : Nat
  context : List String
  analyst : Analyst
  interview : String
  sections : List String
deriving DecidableEq, Repr

/-- The `persona` getter of `AnalystModel` (part_003): a four-line
rendering of the analyst's fields. -/
def Analyst.persona (a : Analyst) : String :=
  "Name: " ++ a.name ++ "\n" ++ "Role: " ++ a.role ++ "\n" ++
    "Affiliation: " ++ a.affiliation ++ "\n" ++ "Description: " ++ a.description ++ "\n"

/-- Modelled from the spec: `PromptTemplates.GENERATE_SEARCH_QUERY()` is
not among the provided sources; §4.2 only requires a fixed instruction to
distil a search query from the conversation, so it is an opaque constant. -/
def GENERATE_SEARCH_QUERY : String := "GENERATE_SEARCH_QUERY"

/-- Modelled from the spec: `PromptTemplates.ANALYST_ASK_QUESTIONS` is not
among the provided sources; §4.2 requires a question prompt built from the
analyst's persona, so it is an opaque builder over the persona. -/
def ANALYST_ASK_QUESTIONS (persona : String) : String :=
  "ANALYST_ASK_QUESTIONS:" ++ persona

/-- Modelled from the spec: `PromptTemplates.GENERATE_ANSWERS` is not
among the provided sources; §4.2 requires an answer prompt built from the
persona and the accumulated context. -/
def GENERATE_ANSWERS (persona context : String) : String :=
  "GENERATE_ANSWERS:" ++ persona ++ ":" ++ context

/-- Modelled from the spec: `PromptTemplates.WRITE_SECTION` is not among
the provided sources; §4.2 requires a section prompt built from the
analyst's description. -/
def WRITE_SECTION (description : String) : String :=
  "WRITE_SECTION:" ++ description

/-- Embedding of `InterviewGraphBuilder.generateQuestion`: ask the LLM
with the persona system prompt and the running messages; the returned
message carries no role. -/
def generateQuestion (llm : LLM) (st : InterviewState) : Except String Msg :=
  match llm ({ role := "system", content := ANALYST_ASK_QUESTIONS st.analyst.persona }
      :: st.messages) with
  | .ok content => .ok { role := "", content := content }
  | .error e => .error ("Failed to generate analyst question: " ++ e)

/-- The formatting of one search result inside `searchWeb`. -/
def formatDoc (doc : SearchDoc) : String :=
  "<Document href=\"" ++ jsOrS (some doc.url) "#" ++ "\"/>\n" ++
    doc.content ++ "\n</Document>"

/-- The query-generation call at the head of `searchWeb`. -/
def searchQueryOf (llm : LLM) (st : InterviewState) : Except String String :=
  llm ({ role := "system", content := GENERATE_SEARCH_QUERY } :: st.messages)

/-- Embedding of `InterviewGraphBuilder.searchWeb`: generate a query from
the conversation, invoke web search, and return the context delta — the
single no-results placeholder on an empty/absent result, or one formatted
block on success; transport/provider failures become pipeline errors. -/
def searchWeb (llm : LLM) (tavily : Tavily) (st : InterviewState) :
    Except String (List String) :=
  match searchQueryOf llm st with
  | .error e => .error ("Failed during web search execution: " ++ e)
  | .ok q =>
    match tavily q with
    | .error e => .error ("Failed during web search execution: " ++ e)
    | .ok none => .ok ["[No search results found.]"]
    | .ok (some docs) =>
      if docs.length = 0 then .ok ["[No search results found.]"]
      else .ok [jsJoin "\n\n---\n\n" (docs.map formatDoc)]

/-- Embedding of `InterviewGraphBuilder.generateAnswer`: answer from the
accumulated context; the result is tagged with the `expert` role. -/
def generateAnswer (llm : LLM) (st : InterviewState) : Except String Msg :=
  let context := jsOrS (some (jsJoin "\n" st.context)) "[No context available.]"
  match llm ({ role := "system",
               content := GENERATE_ANSWERS st.analyst.persona context } :: st.messages) with
  | .ok content => .ok { role := "expert", content := content }
  | .error e => .error ("Failed to generate expert answer: " ++ e)

/-- Embedding of `InterviewGraphBuilder.saveInterview`: render messages as
`role: content` lines (an absent role prints as `unknown`). -/
def saveInterview (st : InterviewState) : String :=
  jsJoin "\n" (st.messages.map fun m => jsOrS (some m.role) "unknown" ++ ": " ++ m.content)

/-- Embedding of `InterviewGraphBuilder.writeSection`: one section from
the accumulated context and the analyst's description. -/
def writeSection (llm : LLM) (st : InterviewState) : Except String String :=
  let context := jsOrS (some (jsJoin "\n" st.context)) "[No context available.]"
  match llm [{ role := "system", content := WRITE_SECTION st.analyst.description },
      { role := "human", content := "Use this source to write your section: " ++ context }] with
  | .ok content => .ok content
  | .error e => .error ("Failed to generate report section: " ++ e)

/-- The tail of the interview pipeline from the answer stage on:
`generate_answer → save_interview → write_section`. -/
def interviewFromAnswer (llm : LLM) (st : InterviewState) : Except String InterviewState :=
  match generateAnswer llm st with
  | .error e => .error e
  | .ok ans =>
    let st := { st with messages := st.messages ++ [ans] }
    let st := { st with interview := saveInterview st }
    match writeSection llm st with
    | .error e => .error e
    | .ok sec => .ok { st with sections := st.sections ++ [sec] }

/-- The full interview pipeline in the node order declared by `build()`:
`ask_question → search_web → generate_answer → save_interview →
write_section`. Modelled from the spec for the external `StateGraph`
library's merge semantics: array-valued channels (`messages`, `context`,
`sections`) accumulate by appending (§3, §4.2). -/
def runInterview (llm : LLM) (tavily : Tavily) (st : InterviewState) :
    Except String InterviewState :=
  match generateQuestion llm st with
  | .error e => .error e
  | .ok q =>
    let st := { st with messages := st.messages ++ [q] }
    match searchWeb llm tavily st with
    | .error e => .error e
    | .ok ctx => interviewFromAnswer llm { st with context := st.context ++ ctx }

/-! ## Download search — `ReportService.downloadFile` / `findFile`
(src/unnamed/part_004, lines 198–237) and the `/download/:fileName` route
(src/src/api/routes/reportRoutes.ts, lines 256–287). -/

/-- A file-system tree under the output root; the list order of a
directory's children is the `fs.readdirSync` order. -/
inductive FSEntry where
  | file (name : String)
  | dir (name : String) (children : List FSEntry)
deriving Repr

/-- Embedding of `ReportService.findFile`: depth-first recursive search
for an exact file-name match; results are the full paths (as segment
lists) in traversal order. -/
def findFileIn (fileName : String) : List FSEntry → List (List String)
  | [] => []
  | .file n :: rest =>
    (if n = fileName then [[n]] else []) ++ findFileIn fileName rest
  | .dir n cs :: rest =>
    (findFileIn fileName cs).map (n :: ·) ++ findFileIn fileName rest

/-- Embedding of `ReportService.downloadFile`: `none` for the output root
models a missing `generated_report` directory (`fs.existsSync` false);
the first match is the file that would be read, `none` the JS `null`. -/
def downloadFile (root : Option (List FSEntry)) (fileName : String) :
    Option (List String) :=
  match root with
  | none => none
  | some entries => (findFileIn fileName entries).head?

/-- The HTTP outcome of the download route. -/
inductive DownloadResult where
  | invalid
  | notFound
  | ok (path : List String)
deriving DecidableEq, Repr

/-- Embedding of the `/download/:fileName` route handler: the
path-traversal guard (`!fileName || fileName.includes('..') ||
fileName.includes('/')`) runs before any filesystem access. -/
def downloadRoute (root : Option (List FSEntry)) (fileName : String) : DownloadResult :=
  if fileName = "" ∨ jsIncludes fileName ".." = true ∨ jsIncludes fileName "/" = true then
    .invalid
  else
    match downloadFile root fileName with
    | none => .notFound
    | some p => .ok p

/-! ## Workflow Coordinator — `ReportService` (src/unnamed/part_004) and
`AutonomousReportGenerator.executeWorkflow` (src/unnamed/part_002,
lines 525–562).

The run-state table is an association list with JS `Map` get/set
semantics. The wall-clock fields `start_time`/`end_time` are never read
by any control flow and are not modelled; the nondeterministic
identifiers (`uuidv4()`, `thread_${Date.now()}_...`) are passed in as
parameters. -/

inductive RunStatus where
  | in_progress
  | completed
  | error
deriving DecidableEq, Repr

/-- One record of the `workflows` map. Absent JS properties are the
declared defaults (`none` / `[]`). -/
structure ServiceWorkflow where
  thread_id : String
  topic : String
  max_analysts : Nat
  status : RunStatus
  feedback : Option String := none
  analysts : List Analyst := []
  sections : List String := []
  final_report : Option String := none
  error : Option String := none
deriving DecidableEq, Repr

/-- The `workflows : Map<string, any>` table. -/
def ServiceState : Type := List (String × ServiceWorkflow)

/-- JS `Map.prototype.set`: replace in place if the key exists, append
otherwise. -/
def mapSet {α : Type} (m : List (String × α)) (k : String) (v : α) :
    List (String × α) :=
  if (List.lookup k m).isSome then
    m.map fun p => if p.1 = k then (k, v) else p
  else m ++ [(k, v)]

/-- Modelled from the spec: `PromptTemplates.CREATE_ANALYSTS_PROMPT` is
not among the provided sources; per §4.1/§6 persona generation receives
the topic, the analyst cap and the human feedback, so the prompt is an
injective string builder over those three inputs. -/
def CREATE_ANALYSTS_PROMPT (topic : String) (maxAnalysts : Nat) (feedback : String) :
    String :=
  "CREATE_ANALYSTS_PROMPT:" ++ topic ++ ":" ++ toString maxAnalysts ++ ":" ++ feedback

/-- Modelled from the spec: `PromptTemplates.REPORT_WRITER_INSTRUCTIONS`
is not among the provided sources; an opaque builder over the topic. -/
def REPORT_WRITER_INSTRUCTIONS (topic : String) : String :=
  "REPORT_WRITER_INSTRUCTIONS:" ++ topic

/-- Modelled from the spec:
`PromptTemplates.INTRO_CONCLUSION_INSTRUCTIONS` is not among the provided
sources; an opaque builder over the topic and the formatted sections. -/
def INTRO_CONCLUSION_INSTRUCTIONS (topic formattedSections : String) : String :=
  "INTRO_CONCLUSION_INSTRUCTIONS:" ++ topic ++ ":" ++ formattedSections

/-- Embedding of `AutonomousReportGenerator.createAnalysts`. -/
def createAnalysts (llm : LLM) (topic : String) (maxAnalysts : Nat)
    (humanAnalystFeedback : String) : Except String (List Analyst) :=
  match llm [{ role := "system",
               content := CREATE_ANALYSTS_PROMPT topic maxAnalysts humanAnalystFeedback },
      { role := "human", content := "Generate the set of analysts." }] with
  | .ok content => .ok (parseAnalystsFromResponse content)
  | .error e => .error ("Failed to create analysts: " ++ e)

/-- Embedding of `AutonomousReportGenerator.writeReport`; the
`sections.push` on an empty array mutates the caller's array, so the
(possibly extended) sections travel back with the result. -/
def writeReport (llm : LLM) (sections : List String) (topic : String) :
    Except String (String × List String) :=
  let sections :=
    if sections.length = 0 then
      sections ++ ["No sections generated — please verify interview stage."]
    else sections
  match llm [{ role := "system", content := REPORT_WRITER_INSTRUCTIONS topic },
      { role := "human", content := jsJoin "\n\n" sections }] with
  | .ok content => .ok (content, sections)
  | .error e => .error ("Failed to write main report: " ++ e)

/-- Embedding of `AutonomousReportGenerator.writeIntroduction`. -/
def writeIntroduction (llm : LLM) (sections : List String) (topic : String) :
    Except String String :=
  match llm [{ role := "system",
               content := INTRO_CONCLUSION_INSTRUCTIONS topic (jsJoin "\n\n" sections) },
      { role := "human", content := "Write the report introduction" }] with
  | .ok content => .ok content
  | .error e => .error ("Failed to generate introduction: " ++ e)

/-- Embedding of `AutonomousReportGenerator.writeConclusion`. -/
def writeConclusion (llm : LLM) (sections : List String) (topic : String) :
    Except String String :=
  match llm [{ role := "system",
               content := INTRO_CONCLUSION_INSTRUCTIONS topic (jsJoin "\n\n" sections) },
      { role := "human", content := "Write the report conclusion" }] with
  | .ok content => .ok content
  | .error e => .error ("Failed to generate conclusion: " ++ e)

/-- The result object of the generator's workflow. -/
structure WorkflowResult where
  thread_id : String
  analysts : List Analyst
  sections : List String
  final_report : String
deriving DecidableEq, Repr

/-- Embedding of `AutonomousReportGenerator.executeWorkflow`: create
analysts (with `human_analyst_feedback := feedback || ''`), derive the
mock sections, write report/introduction/conclusion, finalize. -/
def generatorExecuteWorkflow (llm : LLM) (rid : String) (topic : String)
    (maxAnalysts : Nat) (feedback : Option String) : Except String WorkflowResult :=
  match createAnalysts llm topic maxAnalysts (jsOrS feedback "") with
  | .error e => .error ("Workflow execution failed: " ++ e)
  | .ok analysts =>
    let sections := analysts.map fun analyst =>
      "## Section: " ++ analyst.name ++ "\nAnalysis from " ++ analyst.role ++ " at " ++
        analyst.affiliation ++ ".\n\n" ++ analyst.description ++
        "\n\nMock interview content would go here."
    match writeReport llm sections topic with
    | .error e => .error ("Workflow execution failed: " ++ e)
    | .ok (content, sections) =>
      match writeIntroduction llm sections topic with
      | .error e => .error ("Workflow execution failed: " ++ e)
      | .ok introduction =>
        match writeConclusion llm sections topic with
        | .error e => .error ("Workflow execution failed: " ++ e)
        | .ok conclusion =>
          .ok { thread_id := rid, analysts := analysts, sections := sections,
                final_report := finalizeReport content introduction conclusion }

/-- Embedding of `ReportService.executeWorkflow` (the background task
body). The reporter is invoked as `executeWorkflow(topic, maxAnalysts)` —
its third `feedback` parameter is omitted at this call site exactly as in
the source, hence `none` here. On success the spread
`{...old, ...result, status: 'completed'}` overwrites the result fields
and the status; on failure only status and error are overwritten. Both
call sites store the entry before invoking, so the `getD` fallback for a
missing entry is never reached. -/
def serviceExecuteWorkflow (llm : LLM) (rid : String) (st : ServiceState)
    (threadId : String) (topic : String) (maxAnalysts : Nat) : ServiceState :=
  let old := (List.lookup threadId st).getD
    { thread_id := threadId, topic := topic, max_analysts := maxAnalysts,
      status := .in_progress }
  match generatorExecuteWorkflow llm rid topic maxAnalysts none with
  | .ok result =>
    mapSet st threadId
      { old with thread_id := result.thread_id, analysts := result.analysts,
                 sections := result.sections, final_report := some result.final_report,
                 status := .completed }
  | .error e =>
    mapSet st threadId { old with status := .error, error := some e }

/-- The outcome object returned by the service operations (the fields of
`ApiResponse` that the embedded operations populate). -/
structure ApiResult where
  success : Bool
  threadId : Option String := none
  error : Option String := none
deriving DecidableEq, Repr

/-- Embedding of `ReportService.startReportGeneration`: store the initial
`in_progress` record and return at once; the background task
(`serviceExecuteWorkflow`) is fire-and-forget — the environment applies
it after this returns. The fresh `uuidv4()` is the `threadId` argument. -/
def startReportGeneration (st : ServiceState) (threadId : String) (topic : String)
    (maxAnalysts : Nat) : ServiceState × ApiResult :=
  (mapSet st threadId
    { thread_id := threadId, topic := topic, max_analysts := maxAnalysts,
      status := .in_progress },
   { success := true, threadId := some threadId })

/-- Embedding of `ReportService.submitFeedback`: not-found for an unknown
run; otherwise record the feedback on the run record and `await` a full
re-execution before returning. -/
def submitFeedback (llm : LLM) (rid : String) (st : ServiceState)
    (threadId feedback : String) : ServiceState × ApiResult :=
  match List.lookup threadId st with
  | none =>
    (st, { success := false,
           error := some ("Workflow with thread_id " ++ threadId ++ " not found") })
  | some workflow =>
    let st := mapSet st threadId { workflow with feedback := some feedback }
    let st := serviceExecuteWorkflow llm rid st threadId workflow.topic
      workflow.max_analysts
    (st, { success := true })

/-- The sequence of run-state table snapshots `submitFeedback` writes: the
incoming table, the table right after the feedback is recorded (before
re-execution), and the table after the awaited re-execution. -/
def submitFeedbackStates (llm : LLM) (rid : String) (st : ServiceState)
    (threadId feedback : String) : List ServiceState :=
  match List.lookup threadId st with
  | none => [st]
  | some workflow =>
    let st1 := mapSet st threadId { workflow with feedback := some feedback }
    [st, st1,
     serviceExecuteWorkflow llm rid st1 threadId workflow.topic workflow.max_analysts]

/-- The stored status of a run. -/
def statusOf (st : ServiceState) (threadId : String) : Option RunStatus :=
  (List.lookup threadId st).map ServiceWorkflow.status

/-- A language model that always answers with one fixed, parseable
persona block — for exercising the coordinator on concrete runs. -/
def constPersonaLLM : LLM :=
  fun _ => .ok "Name: A\nRole: R\nAffiliation: F\nDescription: D"

/-- A language model whose provider always fails. -/
def failingLLM : LLM := fun _ => .error "boom"

/-- A concrete completed run: started, then executed to completion by the
background task. -/
def demoCompleted : ServiceState :=
  serviceExecuteWorkflow constPersonaLLM "r1"
    (startReportGeneration [] "t1" "econ" 3).1 "t1" "econ" 3

/-- A language model that answers every invocation with `QQ` — for
exercising the interview pipeline on concrete runs. -/
def demoLLM : LLM := fun _ => .ok "QQ"

/-- A web-search collaborator that succeeds with an empty result array. -/
def emptyTavily : Tavily := fun _ => .ok (some [])

/-- A concrete interview state at the start of a pipeline run. -/
def demoIState : InterviewState :=
  { messages := [], max_num_turns := 2, context := [],
    analyst := ⟨"A", "R", "F", "D"⟩, interview := "", sections := [] }

/-- A concrete stored run record in a terminal state. -/
def wfDemo : ServiceWorkflow :=
  { thread_id := "t1", topic := "top", max_analysts := 1, status := .completed }

/-- A one-run run-state table holding `wfDemo` under `t1`. -/
def stDemo : ServiceState := [("t1", wfDemo)]

end ARA

/-! ### Supporting lemmas for the document exporter -/

namespace ARA

theorem firstDrawY_append (a b : List PdfEvent) :
    firstDrawY (a ++ b) = (firstDrawY a).orElse fun _ => firstDrawY b := by
  induction a with
  | nil => simp [firstDrawY]
  | cons e es ih =>
    cases e
    · simp [firstDrawY, List.findSome?_cons]
    · simp only [List.cons_append, firstDrawY, List.findSome?_cons]
      simpa [firstDrawY] using ih

/-- The word-wrap fold never draws above the printable area it entered
at: either nothing has been drawn yet and the cursor still sits at the
entry position `y0`, or the first drawn segment sits exactly at `y0`. -/
theorem pdfWrap_first_draw (w : String → Nat) (y0 : Nat) (words : List String) :
    ∀ (evs : List PdfEvent) (y : Nat) (cur : String),
      (firstDrawY evs = none ∧ y = y0) ∨ firstDrawY evs = some y0 →
      (firstDrawY (words.foldl (pdfWrapStep w) (evs, y, cur)).1 = none ∧
        (words.foldl (pdfWrapStep w) (evs, y, cur)).2.1 = y0) ∨
      firstDrawY (words.foldl (pdfWrapStep w) (evs, y, cur)).1 = some y0 := by
  induction words with
  | nil =>
    intro evs y cur h
    simpa using h
  | cons wd ws ih =>
    intro evs y cur h
    simp only [List.foldl_cons]
    by_cases hw : w (if cur = "" then wd else cur ++ " " ++ wd) > 500
    · have hstep : pdfWrapStep w (evs, y, cur) wd =
          (evs ++ [.draw cur 100 y 11 false], y + 30, wd) := by
        simp [pdfWrapStep, hw]
      rw [hstep]
      refine ih _ _ _ (Or.inr ?_)
      rcases h with ⟨hn, rfl⟩ | hs
      · rw [firstDrawY_append, hn]; rfl
      · rw [firstDrawY_append, hs]; rfl
    · have hstep : pdfWrapStep w (evs, y, cur) wd =
          (evs, y, if cur = "" then wd else cur ++ " " ++ wd) := by
        simp [pdfWrapStep, hw]
      rw [hstep]
      exact ih _ _ _ h

/-- The word-wrap fold only appends events. -/
theorem pdfWrap_only_appends (w : String → Nat) (words : List String) :
    ∀ (evs : List PdfEvent) (y : Nat) (cur : String),
      ∃ tail, (words.foldl (pdfWrapStep w) (evs, y, cur)).1 = evs ++ tail := by
  induction words with
  | nil => intro evs y cur; exact ⟨[], by simp⟩
  | cons wd ws ih =>
    intro evs y cur
    simp only [List.foldl_cons]
    by_cases hw : w (if cur = "" then wd else cur ++ " " ++ wd) > 500
    · have hstep : pdfWrapStep w (evs, y, cur) wd =
          (evs ++ [.draw cur 100 y 11 false], y + 30, wd) := by
        simp [pdfWrapStep, hw]
      rw [hstep]
      obtain ⟨tail, htail⟩ := ih (evs ++ [.draw cur 100 y 11 false]) (y + 30) wd
      exact ⟨.draw cur 100 y 11 false :: tail, by simpa using htail⟩
    · have hstep : pdfWrapStep w (evs, y, cur) wd =
          (evs, y, if cur = "" then wd else cur ++ " " ++ wd) := by
        simp [pdfWrapStep, hw]
      rw [hstep]
      exact ih evs y _

/-- Any line's first drawn segment lies within the printable area: the
page-break check precedes it. -/
theorem pdfLine_first_draw_le (w : String → Nat) (y : Nat) (line : String) :
    ∀ v, firstDrawY ((pdfLine w ([], y) line).1) = some v → v ≤ 1484 := by
  intro v hv
  simp only [pdfLine] at hv
  by_cases hb : jsTrim line = ""
  · rw [if_pos hb] at hv
    simp [firstDrawY] at hv
  · rw [if_neg hb] at hv
    set y' := if y > 1484 then 100 else y with hy'
    set evs' : List PdfEvent := if y > 1484 then [] ++ [PdfEvent.newPage] else [] with hevs'
    have hy'le : y' ≤ 1484 := by rw [hy']; split <;> omega
    have hevs'none : firstDrawY evs' = none := by
      rw [hevs']; split <;> simp [firstDrawY]
    by_cases h1 : strStartsWith (jsTrim line) "# "
    · rw [if_pos h1, firstDrawY_append, hevs'none] at hv
      simp [firstDrawY] at hv
      omega
    rw [if_neg h1] at hv
    by_cases h2 : strStartsWith (jsTrim line) "## "
    · rw [if_pos h2, firstDrawY_append, hevs'none] at hv
      simp [firstDrawY] at hv
      omega
    rw [if_neg h2] at hv
    by_cases h3 : strStartsWith (jsTrim line) "### "
    · rw [if_pos h3, firstDrawY_append, hevs'none] at hv
      simp [firstDrawY] at hv
      omega
    rw [if_neg h3] at hv
    by_cases hw : w (jsTrim line) > 500
    · rw [if_pos hw] at hv
      have hwrap := pdfWrap_first_draw w y' (jsSplit (jsTrim line) " ") evs' y' ""
        (Or.inl ⟨hevs'none, rfl⟩)
      by_cases hcur :
          ((jsSplit (jsTrim line) " ").foldl (pdfWrapStep w) (evs', y', "")).2.2 ≠ ""
      · rw [if_pos hcur, firstDrawY_append] at hv
        rcases hwrap with ⟨hnone, hyc⟩ | hsome
        · rw [hnone] at hv
          simp [firstDrawY, hyc] at hv
          omega
        · rw [hsome] at hv
          simp at hv
          omega
      · rw [if_neg hcur] at hv
        rcases hwrap with ⟨hnone, -⟩ | hsome
        · rw [hnone] at hv
          exact absurd hv (by simp)
        · rw [hsome] at hv
          injection hv with hv
          omega
    · rw [if_neg hw, firstDrawY_append, hevs'none] at hv
      simp [firstDrawY] at hv
      omega

/-- When the incoming cursor is past the printable area and the line is
not blank, the first event emitted for the line is a page break. -/
theorem pdfLine_break_head (w : String → Nat) (y : Nat) (line : String)
    (hp : 1484 < y) (hb : jsTrim line ≠ "") :
    ((pdfLine w ([], y) line).1).head? = some PdfEvent.newPage := by
  simp only [pdfLine]
  rw [if_neg hb]
  have hcond : y > 1484 := hp
  simp only [hcond, if_pos, List.nil_append]
  by_cases h1 : strStartsWith (jsTrim line) "# "
  · simp [h1]
  simp only [if_neg h1]
  by_cases h2 : strStartsWith (jsTrim line) "## "
  · simp [h2]
  simp only [if_neg h2]
  by_cases h3 : strStartsWith (jsTrim line) "### "
  · simp [h3]
  simp only [if_neg h3]
  by_cases hw : w (jsTrim line) > 500
  · simp only [if_pos hw]
    obtain ⟨tail, htail⟩ :=
      pdfWrap_only_appends w (jsSplit (jsTrim line) " ") [PdfEvent.newPage] 100 ""
    split
    · rw [htail]
      simp
    · rw [htail]
      simp
  · simp [hw]

end ARA

/-! ### Supporting lemmas for the persona parser -/

namespace ARA

theorem append_ne_empty_right (a b : String) (h : b ≠ "") : a ++ b ≠ "" := by
  intro hc
  have hd := congrArg String.data hc
  rw [String.data_append] at hd
  have : b.data = [] := (List.append_eq_nil.1 hd).2
  exact h (by cases b; simp_all)

theorem append_ne_empty_left (a b : String) (h : a ≠ "") : a ++ b ≠ "" := by
  intro hc
  have hd := congrArg String.data hc
  rw [String.data_append] at hd
  have : a.data = [] := (List.append_eq_nil.1 hd).1
  exact h (by cases a; simp_all)

theorem jsOrS_ne_empty (x : Option String) (d : String) (h : d ≠ "") :
    jsOrS x d ≠ "" := by
  cases x with
  | none => simpa [jsOrS] using h
  | some s =>
    by_cases hs : s = "" <;> simp [jsOrS, hs, h]

/-- `completeAnalyst` always produces four non-empty fields, whatever the
partial record holds. -/
theorem completeAnalyst_good (p : PartialAnalyst) :
    (completeAnalyst p).name ≠ "" ∧ (completeAnalyst p).role ≠ "" ∧
    (completeAnalyst p).affiliation ≠ "" ∧ (completeAnalyst p).description ≠ "" := by
  refine ⟨jsOrS_ne_empty _ _ (by decide), jsOrS_ne_empty _ _ (by decide),
    jsOrS_ne_empty _ _ (by decide), jsOrS_ne_empty _ _ ?_⟩
  exact append_ne_empty_right _ _ (by decide)

/-- One parser-loop step either leaves the pushed list unchanged or pushes
the completion of the current partial record. -/
theorem parseStep_fst (acc : List Analyst × PartialAnalyst) (line : String) :
    (parseStep acc line).1 = acc.1 ∨
    (parseStep acc line).1 = acc.1 ++ [completeAnalyst acc.2] := by
  simp only [parseStep]
  repeat' split
  all_goals simp

/-- Fold invariant: every analyst pushed by the parser loop has four
non-empty fields. -/
theorem foldl_parseStep_good (lines : List String) (acc : List Analyst × PartialAnalyst)
    (h : ∀ a ∈ acc.1, a.name ≠ "" ∧ a.role ≠ "" ∧ a.affiliation ≠ "" ∧ a.description ≠ "") :
    ∀ a ∈ (lines.foldl parseStep acc).1,
      a.name ≠ "" ∧ a.role ≠ "" ∧ a.affiliation ≠ "" ∧ a.description ≠ "" := by
  induction lines generalizing acc with
  | nil => exact h
  | cons l ls ih =>
    refine ih (parseStep acc l) ?_
    rcases parseStep_fst acc l with he | he <;> rw [he]
    · exact h
    · intro a ha
      rcases List.mem_append.1 ha with hmem | hmem
      · exact h a hmem
      · rcases List.mem_singleton.1 hmem with rfl
        exact completeAnalyst_good acc.2

theorem createAnalystsFromContent_length (content : String) :
    (createAnalystsFromContent content).length = 3 := by
  unfold createAnalystsFromContent
  simp only [List.length_map, List.length_range]
  have hle : ((jsSetDedupe (extractProperNames content)).take 3).length ≤ 3 := by
    simp
  omega

theorem createAnalystsFromContent_good (content : String) :
    ∀ a ∈ createAnalystsFromContent content,
      a.name ≠ "" ∧ a.role ≠ "" ∧ a.affiliation ≠ "" ∧ a.description ≠ "" := by
  intro a ha
  unfold createAnalystsFromContent at ha
  rcases List.mem_map.1 ha with ⟨i, -, rfl⟩
  have hname : jsOrS (((jsSetDedupe (extractProperNames content)).take 3).get? i)
      ("Analyst " ++ toString (i + 1)) ≠ "" :=
    jsOrS_ne_empty _ _ (append_ne_empty_left _ _ (by decide))
  refine ⟨hname, ?_, ?_, append_ne_empty_right _ _ (by decide)⟩
  · by_cases h0 : i = 0 <;> by_cases h1 : i = 1 <;> simp [h0, h1]
  · by_cases h0 : i = 0 <;> by_cases h1 : i = 1 <;> simp [h0, h1]

end ARA

/-- C6: for every input string, persona parsing returns at least one
analyst, and every returned analyst has all four fields — name, role,
affiliation, description — non-empty (missing fields are backfilled with
fixed defaults when a record is flushed, and the content-based fallback
synthesizes fully-populated analysts). -/
theorem parseAnalysts_total_and_complete (content : String) :
    1 ≤ (ARA.parseAnalystsFromResponse content).length ∧
    ∀ a ∈ ARA.parseAnalystsFromResponse content,
      a.name ≠ "" ∧ a.role ≠ "" ∧ a.affiliation ≠ "" ∧ a.description ≠ "" := by
  have hgood : ∀ a ∈ ARA.parseAnalystsLoop content,
      a.name ≠ "" ∧ a.role ≠ "" ∧ a.affiliation ≠ "" ∧ a.description ≠ "" := by
    intro a ha
    simp only [ARA.parseAnalystsLoop] at ha
    split at ha
    · rcases List.mem_append.1 ha with hmem | hmem
      · exact ARA.foldl_parseStep_good _ _ (by simp) a hmem
      · rcases List.mem_singleton.1 hmem with rfl
        exact ARA.completeAnalyst_good _
    · exact ARA.foldl_parseStep_good _ _ (by simp) a ha
  simp only [ARA.parseAnalystsFromResponse]
  by_cases hempty : ARA.parseAnalystsLoop content = []
  · rw [if_pos hempty]
    exact ⟨by rw [ARA.createAnalystsFromContent_length]; omega,
      ARA.createAnalystsFromContent_good content⟩
  · rw [if_neg hempty]
    exact ⟨Nat.one_le_iff_ne_zero.2 (by simpa [List.length_eq_zero] using hempty), hgood⟩

/-- C6 witness: the parse of a concrete two-line response yields one
analyst whose four fields the main theorem certifies non-empty. -/
theorem parseAnalysts_total_and_complete_witness :
    (⟨"Bob", "Economist", "AI Research Institute",
      "Bob provides expert analysis on the topic."⟩ : ARA.Analyst).name ≠ "" ∧
    (⟨"Bob", "Economist", "AI Research Institute",
      "Bob provides expert analysis on the topic."⟩ : ARA.Analyst).role ≠ "" ∧
    (⟨"Bob", "Economist", "AI Research Institute",
      "Bob provides expert analysis on the topic."⟩ : ARA.Analyst).affiliation ≠ "" ∧
    (⟨"Bob", "Economist", "AI Research Institute",
      "Bob provides expert analysis on the topic."⟩ : ARA.Analyst).description ≠ "" :=
  (parseAnalysts_total_and_complete "Name: Bob\nRole: Economist").2 _ (by decide)

/-- C8 counterexample: the claim "for every body string containing no
sources block, `finalizeReport(body, "", "")` returns `body` exactly" is
false — a body that begins with `## Insights` has that heading stripped
and is trimmed, so the output differs from the input. -/
theorem finalizeReport_identity_claim_false :
    ¬ (∀ body : String, ARA.jsIncludes body "## Sources" = false →
        ARA.finalizeReport body "" "" = body) := by
  intro h
  exact absurd (h "## Insights\nHello" (by decide)) (by decide)

/-- C8 amended: for every body string containing no sources block and not
beginning with the literal `## Insights` heading, `finalizeReport(body,
"", "")` with empty introduction and conclusion returns `body` exactly,
with no separators emitted around the empty segments. -/
theorem finalizeReport_empty_segments_identity (body : String)
    (hins : ARA.strStartsWith body "## Insights" = false)
    (hsrc : ARA.jsIncludes body "## Sources" = false) :
    ARA.finalizeReport body "" "" = body := by
  unfold ARA.finalizeReport
  simp [hins, hsrc]

/-- C8 witness: the amended identity at a concrete body with neither a
sources block nor a leading insights heading. -/
theorem finalizeReport_empty_segments_identity_witness :
    ARA.finalizeReport "Hello\nWorld" "" "" = "Hello\nWorld" :=
  finalizeReport_empty_segments_identity "Hello\nWorld" (by decide) (by decide)

/-- C3: `finalizeReport` on the spec's example strips the leading
`## Insights` heading, relocates the sources block to the end under a
re-added `## Sources` heading, and produces exactly the expected string. -/
theorem finalizeReport_spec_example :
    ARA.finalizeReport "## Insights\nBody\n## Sources\nSrc1" "Intro" "Concl"
      = "Intro\n\n---\n\nBody\n\n---\n\nConcl\n\n## Sources\nSrc1" := by
  decide

/-- C4 counterexample: the claim that the PDF encoder's running vertical
cursor never exceeds the printable area (page height minus bottom margin,
742 pt = 1484 half-points) at the moment a line is drawn is false: the
word-wrap loop for a wide body line draws continuation segments without
re-running the page-break check, so a wrapped segment can be drawn below
the printable area with no page break emitted. -/
theorem pdf_cursor_bound_claim_false :
    ¬ (∀ (w : String → Nat) (text : String),
        (ARA.saveAsPdf w text).all (ARA.drawWithin 1484) = true) := by
  intro h
  exact absurd (h ARA.charWidth10 ARA.pdfWideLineText) (by decide)

/-- C4 amended: the page-break check runs once per input line, before the
line's first drawn segment: for every width measurer, incoming cursor and
line, the first segment drawn for the line lies within the printable area
(1484 half-points), and when the incoming cursor already exceeds that
bound a page break is emitted before anything is drawn; only continuation
segments of a word-wrapped body line may be drawn beyond the bound
(as the counterexample shows). Since the cursor argument is arbitrary,
this covers every line of every document processed by `saveAsPdf`. -/
theorem pdf_line_first_draw_within (w : String → Nat) (y : Nat) (line : String) :
    (∀ v, ARA.firstDrawY ((ARA.pdfLine w ([], y) line).1) = some v → v ≤ 1484) ∧
    (1484 < y → ARA.jsTrim line ≠ "" →
      ((ARA.pdfLine w ([], y) line).1).head? = some ARA.PdfEvent.newPage) :=
  ⟨ARA.pdfLine_first_draw_le w y line, fun hp hb => ARA.pdfLine_break_head w y line hp hb⟩

/-- C4 witness: a heading line entering with the cursor at 1500
half-points gets a page break and is drawn at the reset position 100,
which is within the bound. -/
theorem pdf_line_first_draw_within_witness :
    (100 : Nat) ≤ 1484 ∧
    ((ARA.pdfLine ARA.charWidth10 ([], 1500) "# T").1).head? = some ARA.PdfEvent.newPage :=
  ⟨(pdf_line_first_draw_within ARA.charWidth10 1500 "# T").1 100 (by decide),
   (pdf_line_first_draw_within ARA.charWidth10 1500 "# T").2 (by decide) (by decide)⟩

/-- C5 counterexample: the claim that the DOCX and PDF encoders assign the
identical classification to every line is false: the DOCX encoder tests
heading markers on the raw line while the PDF encoder tests them on the
trimmed line, so a heading with leading whitespace is a body paragraph in
DOCX but a level-1 heading in PDF. -/
theorem encoder_classification_claim_false :
    ¬ (∀ line : String, ARA.docxClassify line = ARA.pdfClassify line) := by
  intro h
  exact absurd (h " # Title") (by decide)

/-- C5 amended: for every line that equals its own trim (no leading or
trailing whitespace), the DOCX and PDF encoders assign the identical
classification — heading level 1, 2, 3, body, or skipped-as-blank. -/
theorem encoder_classification_agree (line : String) (h : ARA.jsTrim line = line) :
    ARA.docxClassify line = ARA.pdfClassify line := by
  simp only [ARA.docxClassify, ARA.pdfClassify, ARA.docxPara, h]
  by_cases h1 : ARA.strStartsWith line "# "
  · simp [h1]
  by_cases h2 : ARA.strStartsWith line "## "
  · simp [h1, h2]
  by_cases h3 : ARA.strStartsWith line "### "
  · simp [h1, h2, h3]
  simp [h1, h2, h3]

/-- C5 witness: the two encoders agree on a concrete trim-stable heading
line. -/
theorem encoder_classification_agree_witness :
    ARA.docxClassify "## A" = ARA.pdfClassify "## A" :=
  encoder_classification_agree "## A" (by decide)

/-! ### Supporting lemmas for the workflow coordinator -/

namespace ARA

theorem mapSet_pos {α : Type} (m : List (String × α)) (k : String) (v : α)
    (h : (List.lookup k m).isSome) :
    mapSet m k v = m.map fun p => if p.1 = k then (k, v) else p := by
  unfold mapSet
  rw [if_pos h]

theorem mapSet_neg {α : Type} (m : List (String × α)) (k : String) (v : α)
    (h : ¬ (List.lookup k m).isSome) :
    mapSet m k v = m ++ [(k, v)] := by
  unfold mapSet
  rw [if_neg h]

theorem lookup_map_replace {α : Type} (k : String) (v : α) :
    ∀ m : List (String × α), (List.lookup k m).isSome →
      List.lookup k (m.map fun p => if p.1 = k then (k, v) else p) = some v := by
  intro m
  induction m with
  | nil => intro h; simp [List.lookup] at h
  | cons p ps ih =>
    obtain ⟨a, b⟩ := p
    intro h
    by_cases hp : a = k
    · subst hp
      have hone : (fun p : String × α => if p.1 = a then (a, v) else p) (a, b) = (a, v) := by
        simp
      simp only [List.map_cons, hone]
      simp [List.lookup]
    · have hk : (k == a) = false := beq_eq_false_iff_ne.2 fun hc => hp hc.symm
      simp only [List.map_cons] at *
      rw [if_neg (by simpa using hp)]
      simp only [List.lookup, hk] at h ⊢
      exact ih h

theorem lookup_append_self {α : Type} (k : String) (v : α) :
    ∀ m : List (String × α), List.lookup k m = none →
      List.lookup k (m ++ [(k, v)]) = some v := by
  intro m
  induction m with
  | nil => intro _; simp [List.lookup]
  | cons p ps ih =>
    obtain ⟨a, b⟩ := p
    intro h
    by_cases hp : (k == a) = true
    · simp [List.lookup, hp] at h
    · have hk : (k == a) = false := by simpa using hp
      simp only [List.lookup, hk] at h
      simpa [List.lookup, hk] using ih h

/-- JS `Map.set` followed by `Map.get` of the same key. -/
theorem lookup_mapSet_self {α : Type} (m : List (String × α)) (k : String) (v : α) :
    List.lookup k (mapSet m k v) = some v := by
  by_cases h : (List.lookup k m).isSome
  · rw [mapSet_pos m k v h]
    exact lookup_map_replace k v m h
  · rw [mapSet_neg m k v h]
    exact lookup_append_self k v m (Option.not_isSome_iff_eq_none.1 h)

theorem lookup_none_keys {α : Type} (k : String) :
    ∀ m : List (String × α), List.lookup k m = none → ∀ p ∈ m, p.1 ≠ k := by
  intro m
  induction m with
  | nil => intro _ p hp; simp at hp
  | cons q qs ih =>
    obtain ⟨a, b⟩ := q
    intro h p hp
    by_cases hk : (k == a) = true
    · simp [List.lookup, hk] at h
    · have hk' : (k == a) = false := by simpa using hk
      simp only [List.lookup, hk'] at h
      rcases List.mem_cons.1 hp with rfl | hmem
      · intro hc
        have hka : ¬ k = a := by simpa using hk'
        exact hka hc.symm
      · exact ih h p hmem

/-- Setting the same key twice keeps only the second value. -/
theorem mapSet_mapSet {α : Type} (m : List (String × α)) (k : String) (v w : α) :
    mapSet (mapSet m k w) k v = mapSet m k v := by
  by_cases h : (List.lookup k m).isSome
  · rw [mapSet_pos m k w h]
    have h2 : (List.lookup k (m.map fun p => if p.1 = k then (k, w) else p)).isSome := by
      rw [lookup_map_replace k w m h]
      rfl
    rw [mapSet_pos _ k v h2, mapSet_pos m k v h, List.map_map]
    apply List.map_congr_left
    intro p _
    by_cases hp : p.1 = k <;> simp [Function.comp, hp]
  · have hnone : List.lookup k m = none := Option.not_isSome_iff_eq_none.1 h
    rw [mapSet_neg m k w h]
    have h2 : (List.lookup k (m ++ [(k, w)])).isSome := by
      rw [lookup_append_self k w m hnone]
      rfl
    rw [mapSet_pos _ k v h2, mapSet_neg m k v h, List.map_append]
    have hid : (m.map fun p => if p.1 = k then (k, v) else p) = m := by
      conv_rhs => rw [← List.map_id m]
      apply List.map_congr_left
      intro p hp
      rw [if_neg (lookup_none_keys k m hnone p hp)]
      rfl
    rw [hid]
    simp

theorem map_replace_project {α β : Type} (f : α → β) (k : String) (v v' : α)
    (hv : f v = f v') :
    ∀ m : List (String × α),
      ((m.map fun p => if p.1 = k then (k, v) else p).map fun p => (p.1, f p.2)) =
      ((m.map fun p => if p.1 = k then (k, v') else p).map fun p => (p.1, f p.2)) := by
  intro m
  induction m with
  | nil => rfl
  | cons p ps ih =>
    simp only [List.map_cons]
    refine congrArg₂ _ ?_ ih
    by_cases hp : p.1 = k <;> simp [hp, hv]

/-- Projections that erase the stored values' difference make `mapSet`
results indistinguishable. -/
theorem mapSet_map_project {α β : Type} (f : α → β) (m : List (String × α))
    (k : String) (v v' : α) (hv : f v = f v') :
    ((mapSet m k v).map fun p => (p.1, f p.2)) =
    ((mapSet m k v').map fun p => (p.1, f p.2)) := by
  by_cases h : (List.lookup k m).isSome
  · rw [mapSet_pos m k v h, mapSet_pos m k v' h]
    exact map_replace_project f k v v' hv m
  · rw [mapSet_neg m k v h, mapSet_neg m k v' h, List.map_append, List.map_append]
    simp [hv]

/-- The service's background task always leaves the run in a terminal
status. -/
theorem serviceExecuteWorkflow_status (llm : LLM) (rid : String) (st : ServiceState)
    (threadId topic : String) (maxAnalysts : Nat) :
    statusOf (serviceExecuteWorkflow llm rid st threadId topic maxAnalysts) threadId =
      some .completed ∨
    statusOf (serviceExecuteWorkflow llm rid st threadId topic maxAnalysts) threadId =
      some .error := by
  unfold serviceExecuteWorkflow
  cases hg : generatorExecuteWorkflow llm rid topic maxAnalysts none with
  | ok r =>
    left
    simp [statusOf, lookup_mapSet_self]
  | error e =>
    right
    simp [statusOf, lookup_mapSet_self]

/-- `searchWeb` on a successful query and an empty/absent search result:
exactly the single placeholder entry, no error. -/
theorem searchWeb_empty (llm : LLM) (tavily : Tavily) (st : InterviewState) (q : String)
    (hq : searchQueryOf llm st = .ok q)
    (ht : tavily q = .ok none ∨ tavily q = .ok (some [])) :
    searchWeb llm tavily st = .ok ["[No search results found.]"] := by
  unfold searchWeb
  rw [hq]
  rcases ht with h | h <;> simp [h]

end ARA

/-- C1: the code drops the submitted feedback text. `submitFeedback`
stores the feedback on the run record, but `ReportService.executeWorkflow`
invokes the generator without the feedback argument, so persona generation
receives `human_analyst_feedback = ''` whatever was submitted: for any two
feedback texts the resulting run-state tables agree on every field except
the stored `feedback` property (in particular on analysts, sections and
final report), and the API responses coincide. -/
theorem submitFeedback_ignores_feedback_text (llm : ARA.LLM) (rid : String)
    (st : ARA.ServiceState) (threadId fb fb' : String) :
    (((ARA.submitFeedback llm rid st threadId fb).1.map
        fun p => (p.1, { p.2 with feedback := none })) =
      ((ARA.submitFeedback llm rid st threadId fb').1.map
        fun p => (p.1, { p.2 with feedback := none }))) ∧
    (ARA.submitFeedback llm rid st threadId fb).2 =
      (ARA.submitFeedback llm rid st threadId fb').2 := by
  unfold ARA.submitFeedback
  cases hl : List.lookup threadId st with
  | none => exact ⟨rfl, rfl⟩
  | some wf =>
    refine ⟨?_, rfl⟩
    dsimp only
    unfold ARA.serviceExecuteWorkflow
    rw [ARA.lookup_mapSet_self, ARA.lookup_mapSet_self]
    dsimp only [Option.getD_some]
    cases hg : ARA.generatorExecuteWorkflow llm rid wf.topic wf.max_analysts none with
    | ok r =>
      dsimp only
      rw [ARA.mapSet_mapSet, ARA.mapSet_mapSet]
      refine ARA.mapSet_map_project
        (fun w : ARA.ServiceWorkflow => { w with feedback := none }) st threadId _ _ ?_
      rfl
    | error e =>
      dsimp only
      rw [ARA.mapSet_mapSet, ARA.mapSet_mapSet]
      refine ARA.mapSet_map_project
        (fun w : ARA.ServiceWorkflow => { w with feedback := none }) st threadId _ _ ?_
      rfl

/-- C2 counterexample: on a feedback resubmission the stored status is
never reset to `in_progress`. On a concrete completed run, the three
run-table snapshots `submitFeedback` produces (incoming, after recording
feedback, after the awaited re-execution) carry statuses
`completed, completed, completed` when the re-execution succeeds — no
`in_progress` ever appears — and `completed, completed, error` when the
provider fails, a direct `completed → error` transition the claim
forbids. -/
theorem feedback_no_in_progress_reset :
    ((ARA.submitFeedbackStates ARA.constPersonaLLM "r2" ARA.demoCompleted "t1" "fb").map
        (fun s => ARA.statusOf s "t1") =
      [some .completed, some .completed, some .completed]) ∧
    ((ARA.submitFeedbackStates ARA.failingLLM "r2" ARA.demoCompleted "t1" "fb").map
        (fun s => ARA.statusOf s "t1") =
      [some .completed, some .completed, some .error]) :=
  ⟨by decide, by decide⟩

/-- C2 amended: a run is created with status `in_progress` by `start`; a
feedback resubmission leaves the stored status unchanged while recording
the feedback and then — without ever passing through `in_progress` —
overwrites it with the terminal status of the awaited re-execution
(`completed` or `error`). So the realised transitions are
`in_progress → {completed, error}` for a first execution and
`{completed, error} → {completed, error}` directly on resubmission. -/
theorem run_status_lifecycle (llm : ARA.LLM) (rid : String) (st : ARA.ServiceState)
    (threadId topic feedback : String) (maxAnalysts : Nat) (wf : ARA.ServiceWorkflow)
    (h : List.lookup threadId st = some wf) :
    ARA.statusOf (ARA.startReportGeneration st threadId topic maxAnalysts).1 threadId =
      some .in_progress ∧
    ∃ final : ARA.RunStatus,
      (ARA.submitFeedbackStates llm rid st threadId feedback).map
          (fun s => ARA.statusOf s threadId) =
        [some wf.status, some wf.status, some final] ∧
      (final = .completed ∨ final = .error) := by
  constructor
  · simp [ARA.startReportGeneration, ARA.statusOf, ARA.lookup_mapSet_self]
  · unfold ARA.submitFeedbackStates
    rw [h]
    have h0 : ARA.statusOf st threadId = some wf.status := by
      simp [ARA.statusOf, h]
    have h1 : ARA.statusOf
        (ARA.mapSet st threadId { wf with feedback := some feedback }) threadId =
        some wf.status := by
      simp [ARA.statusOf, ARA.lookup_mapSet_self]
    rcases ARA.serviceExecuteWorkflow_status llm rid
        (ARA.mapSet st threadId { wf with feedback := some feedback }) threadId wf.topic
        wf.max_analysts with hs | hs
    · exact ⟨.completed, by simp [h0, h1, hs], Or.inl rfl⟩
    · exact ⟨.error, by simp [h0, h1, hs], Or.inr rfl⟩

/-- C2 witness: the amended lifecycle at a concrete one-run table whose
run is `completed`. -/
theorem run_status_lifecycle_witness :
    ARA.statusOf (ARA.startReportGeneration ARA.stDemo "t1" "top" 1).1 "t1" =
      some .in_progress ∧
    ∃ final : ARA.RunStatus,
      (ARA.submitFeedbackStates ARA.constPersonaLLM "r9" ARA.stDemo "t1" "fb").map
          (fun s => ARA.statusOf s "t1") =
        [some ARA.wfDemo.status, some ARA.wfDemo.status, some final] ∧
      (final = .completed ∨ final = .error) :=
  run_status_lifecycle ARA.constPersonaLLM "r9" ARA.stDemo "t1" "top" "fb" 1 ARA.wfDemo
    (by decide)

/-- C10: whenever `submitFeedback` returns success, the stored run state
already has a terminal status (`completed` or `error`) — the full
re-execution is awaited before returning — whereas `start` returns while
the newly stored run's status is still `in_progress` (its background task
is fire-and-forget). -/
theorem submitFeedback_returns_terminal (llm : ARA.LLM) (rid : String)
    (st : ARA.ServiceState) (threadId feedback tid2 topic2 : String) (max2 : Nat) :
    ((ARA.submitFeedback llm rid st threadId feedback).2.success = true →
      ARA.statusOf (ARA.submitFeedback llm rid st threadId feedback).1 threadId =
        some .completed ∨
      ARA.statusOf (ARA.submitFeedback llm rid st threadId feedback).1 threadId =
        some .error) ∧
    ARA.statusOf (ARA.startReportGeneration st tid2 topic2 max2).1 tid2 =
      some .in_progress := by
  constructor
  · intro hs
    unfold ARA.submitFeedback at hs ⊢
    cases hl : List.lookup threadId st with
    | none =>
      rw [hl] at hs
      simp at hs
    | some wf =>
      dsimp only
      exact ARA.serviceExecuteWorkflow_status llm rid _ threadId wf.topic wf.max_analysts
  · simp [ARA.startReportGeneration, ARA.statusOf, ARA.lookup_mapSet_self]

/-- C10 witness: on a concrete completed run the feedback call succeeds
and the stored status afterwards is terminal. -/
theorem submitFeedback_returns_terminal_witness :
    ARA.statusOf (ARA.submitFeedback ARA.constPersonaLLM "r2" ARA.stDemo "t1" "fb").1 "t1" =
      some .completed ∨
    ARA.statusOf (ARA.submitFeedback ARA.constPersonaLLM "r2" ARA.stDemo "t1" "fb").1 "t1" =
      some .error :=
  (submitFeedback_returns_terminal ARA.constPersonaLLM "r2" ARA.stDemo "t1" "fb" "t9"
    "top" 1).1 (by decide)

/-- C9: a download request whose filename contains `..` or a `/` path
separator is rejected before any search — the outcome is `invalid`
whatever the output root holds — and otherwise the request is answered by
the recursive exact-name search of the output root, reporting not-found
exactly when that search yields no match. -/
theorem download_guard_and_search (root root' : Option (List ARA.FSEntry))
    (fileName : String) :
    (ARA.jsIncludes fileName ".." = true ∨ ARA.jsIncludes fileName "/" = true →
      ARA.downloadRoute root fileName = .invalid ∧
      ARA.downloadRoute root fileName = ARA.downloadRoute root' fileName) ∧
    (fileName ≠ "" → ARA.jsIncludes fileName ".." = false →
      ARA.jsIncludes fileName "/" = false →
      (ARA.downloadRoute root fileName = .notFound ↔
        ARA.downloadFile root fileName = none)) := by
  constructor
  · intro h
    have h1 : ARA.downloadRoute root fileName = .invalid := by
      unfold ARA.downloadRoute
      rw [if_pos (by tauto)]
    have h2 : ARA.downloadRoute root' fileName = .invalid := by
      unfold ARA.downloadRoute
      rw [if_pos (by tauto)]
    exact ⟨h1, h1.trans h2.symm⟩
  · intro h0 h1 h2
    unfold ARA.downloadRoute
    rw [if_neg (by simp [h0, h1, h2])]
    cases hd : ARA.downloadFile root fileName <;> simp [hd]

/-- C9 witness: a traversal filename is rejected against a concrete root,
and a clean filename is answered by the search (not-found on a missing
output root). -/
theorem download_guard_and_search_witness :
    ARA.downloadRoute (some [ARA.FSEntry.file "a.docx"]) "../a.docx" = .invalid ∧
    (ARA.downloadRoute none "a.docx" = .notFound ↔
      ARA.downloadFile none "a.docx" = none) :=
  ⟨((download_guard_and_search (some [ARA.FSEntry.file "a.docx"]) none "../a.docx").1
      (Or.inl (by decide))).1,
   (download_guard_and_search none none "a.docx").2 (by decide) (by decide) (by decide)⟩

/-- C7: in the interview pipeline's search step, a successful web-search
invocation that returns an empty or absent result sequence yields exactly
one context entry — the literal `[No search results found.]` — and the
pipeline proceeds to the answer-generation stage instead of aborting; the
step produces a pipeline error only when the query-generation or the
search invocation itself fails. -/
theorem searchWeb_zero_results_not_error (llm : ARA.LLM) (tavily : ARA.Tavily)
    (st : ARA.InterviewState) :
    (∀ q, ARA.searchQueryOf llm st = .ok q →
      (tavily q = .ok none ∨ tavily q = .ok (some [])) →
      ARA.searchWeb llm tavily st = .ok ["[No search results found.]"]) ∧
    (∀ e, ARA.searchWeb llm tavily st = .error e →
      (∃ e', ARA.searchQueryOf llm st = .error e') ∨
      ∃ q e', ARA.searchQueryOf llm st = .ok q ∧ tavily q = .error e') ∧
    (∀ qmsg q, ARA.generateQuestion llm st = .ok qmsg →
      ARA.searchQueryOf llm { st with messages := st.messages ++ [qmsg] } = .ok q →
      (tavily q = .ok none ∨ tavily q = .ok (some [])) →
      ARA.runInterview llm tavily st =
        ARA.interviewFromAnswer llm
          { st with messages := st.messages ++ [qmsg],
                    context := st.context ++ ["[No search results found.]"] }) := by
  refine ⟨fun q hq ht => ARA.searchWeb_empty llm tavily st q hq ht, ?_, ?_⟩
  · intro e he
    unfold ARA.searchWeb at he
    cases hq : ARA.searchQueryOf llm st with
    | error e' => exact Or.inl ⟨e', rfl⟩
    | ok q =>
      rw [hq] at he
      dsimp only at he
      cases ht : tavily q with
      | error e' => exact Or.inr ⟨q, e', rfl, ht⟩
      | ok od =>
        rw [ht] at he
        exfalso
        cases od with
        | none => simp at he
        | some docs =>
          by_cases hl : docs.length = 0 <;> simp [hl] at he
  · intro qmsg q h1 h2 h3
    unfold ARA.runInterview
    rw [h1]
    dsimp only
    rw [ARA.searchWeb_empty llm tavily _ q h2 h3]

/-- C7 witness: with an always-succeeding model and a search collaborator
returning an empty array, the search step on a concrete state appends the
single placeholder and the pipeline hands over to the answer stage. -/
theorem searchWeb_zero_results_not_error_witness :
    ARA.searchWeb ARA.demoLLM ARA.emptyTavily ARA.demoIState =
      .ok ["[No search results found.]"] ∧
    ARA.runInterview ARA.demoLLM ARA.emptyTavily ARA.demoIState =
      ARA.interviewFromAnswer ARA.demoLLM
        { ARA.demoIState with
            messages := ARA.demoIState.messages ++ [{ role := "", content := "QQ" }],
            context := ARA.demoIState.context ++ ["[No search results found.]"] } :=
  ⟨(searchWeb_zero_results_not_error ARA.demoLLM ARA.emptyTavily ARA.demoIState).1
      "QQ" rfl (Or.inr rfl),
   (searchWeb_zero_results_not_error ARA.demoLLM ARA.emptyTavily ARA.demoIState).2.2
      { role := "", content := "QQ" } "QQ" rfl rfl (Or.inr rfl)⟩
